import Mathlib

/-!
Shallow embedding of the bloodbank causality-tracking subsystem.

Sources embedded:
- src/correlation_tracker.py (CorrelationTracker, generate_idempotent_id)
- src/event_producers/rabbit.py (Publisher.publish)
- src/event_producers/events/registry.py (EventDomain, EventRegistry)
- src/event_producers/events/core/abstraction.py (EventCollector, CommandContext, Invokable)
- src/event_producers/events/core/manager.py (CommandManager)

Modelling conventions:
- Python UUID values are modelled as natural numbers (`EventId`); the uuid5
  derivation (a SHA-1 based name hash from the Python standard library, not
  repository code) is modelled as an abstract function `uuid5 : String → Nat`
  applied to the exact string the source builds.
- The Redis store is modelled as an association list keyed by event id for the
  forward records (`setex` overwrites) and by parent id for the reverse child
  sets (`sadd` adds without duplicating, `smembers` reads the set).
- Async effects are modelled by explicit state passing; raising an exception is
  modelled by `Except.error`; `datetime.utcnow()` is passed in as `now`.
- Connection attempts to external services are modelled by an `Option` argument
  describing the outcome of the attempt (`none` = the attempt raised/timed out).
-/

abbrev EventId := Nat

abbrev Metadata := List (String × String)

/-- Association-list lookup, modelling Python `dict.get` / `in`. -/
def lookupAssoc {κ β : Type} [DecidableEq κ] (l : List (κ × β)) (k : κ) : Option β :=
  match l with
  | [] => none
  | (k', v) :: rest => if k' = k then some v else lookupAssoc rest k

/-- Association-list update, modelling Python `d[k] = v` (overwrite in place,
append at the end if the key is fresh; insertion order is preserved as in a
Python dict). Also models Redis `setex` on a key. -/
def setAssoc {κ β : Type} [DecidableEq κ] (l : List (κ × β)) (k : κ) (v : β) : List (κ × β) :=
  match l with
  | [] => [(k, v)]
  | (k', v') :: rest => if k' = k then (k, v) :: rest else (k', v') :: setAssoc rest k v

/-- Redis `SADD`: add an element to a set (no duplicates). -/
def saddList (s : List EventId) (x : EventId) : List EventId :=
  if x ∈ s then s else s ++ [x]

/-! ### correlation_tracker.py: deterministic event ids -/

/-- CorrelationTracker.generate_event_id (src/correlation_tracker.py:113-145).
Builds the deterministic string "namespace:event_type:unique_key" and hashes it
with uuid5(NAMESPACE_OID, ·), modelled by the abstract `uuid5` argument.
The Python default for `ns` is "bloodbank". -/
def generate_event_id (uuid5 : String → Nat) (event_type : String) (unique_key : String)
    (ns : String) : EventId :=
  uuid5 (ns ++ ":" ++ event_type ++ ":" ++ unique_key)

/-- Python tuple comparison on (key, value) pairs of strings, as used by
`sorted(unique_fields.items())`. -/
def fieldLe (a b : String × String) : Bool :=
  decide (a.1 < b.1 ∨ (a.1 = b.1 ∧ a.2 ≤ b.2))

/-- generate_idempotent_id (src/correlation_tracker.py:406-432): sorts the
named fields, joins them as "k=v" with "|", and derives the id from the
resulting unique key (the tracker method is called with the default
namespace "bloodbank"). -/
def generate_idempotent_id (uuid5 : String → Nat) (event_type : String)
    (unique_fields : List (String × String)) : EventId :=
  let sorted_fields := unique_fields.mergeSort fieldLe
  let unique_key := String.intercalate "|" (sorted_fields.map (fun kv => kv.1 ++ "=" ++ kv.2))
  generate_event_id uuid5 event_type unique_key "bloodbank"

/-! ### correlation_tracker.py: the Redis-backed store -/

/-- The JSON record stored under bloodbank:correlation:forward:{child_id}. -/
structure ForwardRecord where
  parent_event_ids : List EventId
  created_at : Nat
  metadata : Metadata
deriving DecidableEq

/-- The reachable Redis state: forward records keyed by child id, reverse child
sets keyed by parent id. -/
structure RedisStore where
  forward : List (EventId × ForwardRecord)
  reverse : List (EventId × List EventId)
deriving DecidableEq

/-- CorrelationTracker connection state: `_started` and the `redis` client
(`none` models `self.redis = None`). -/
structure CorrelationTracker where
  _started : Bool
  redis : Option RedisStore
deriving DecidableEq

/-- CorrelationTracker.__init__: no connection yet. -/
def CorrelationTracker.init : CorrelationTracker :=
  { _started := false, redis := none }

/-- CorrelationTracker.start (src/correlation_tracker.py:75-102). `conn` is the
outcome of `redis.from_url` + `ping`: `some store` on success, `none` when a
RedisError/TimeoutError/ConnectionError is caught. On failure nothing is
raised: the tracker is left disabled (redis = None, _started = False). -/
def CorrelationTracker.start (t : CorrelationTracker) (conn : Option RedisStore) :
    CorrelationTracker :=
  if t._started then t
  else
    match conn with
    | some store => { _started := true, redis := some store }
    | none => { _started := false, redis := none }

/-- CorrelationTracker.add_correlation (src/correlation_tracker.py:147-211).
Writes the forward record for the child (setex: overwrite) and, for each
parent, adds the child to the reverse set of that parent (sadd). Degraded
tracker: returns unchanged. -/
def CorrelationTracker.add_correlation (t : CorrelationTracker) (child_event_id : EventId)
    (parent_event_ids : List EventId) (metadata : Option Metadata) (now : Nat) :
    CorrelationTracker :=
  if ¬ t._started then t
  else
    match t.redis with
    | none => t
    | some store =>
        let correlation_data : ForwardRecord :=
          { parent_event_ids := parent_event_ids
            created_at := now
            metadata := metadata.getD [] }
        let store1 : RedisStore :=
          { store with forward := setAssoc store.forward child_event_id correlation_data }
        let store2 : RedisStore :=
          { store1 with
            reverse :=
              parent_event_ids.foldl
                (fun rev parent_id =>
                  setAssoc rev parent_id (saddList ((lookupAssoc rev parent_id).getD []) child_event_id))
                store1.reverse }
        { t with redis := some store2 }

/-- CorrelationTracker.get_parents (src/correlation_tracker.py:213-240). -/
def CorrelationTracker.get_parents (t : CorrelationTracker) (event_id : EventId) :
    List EventId :=
  if ¬ t._started then []
  else
    match t.redis with
    | none => []
    | some store =>
        match lookupAssoc store.forward event_id with
        | none => []
        | some correlation => correlation.parent_event_ids

/-- CorrelationTracker.get_children (src/correlation_tracker.py:242-265). -/
def CorrelationTracker.get_children (t : CorrelationTracker) (event_id : EventId) :
    List EventId :=
  if ¬ t._started then []
  else
    match t.redis with
    | none => []
    | some store => (lookupAssoc store.reverse event_id).getD []

/-- CorrelationTracker.get_correlation_metadata (src/correlation_tracker.py:331-360). -/
def CorrelationTracker.get_correlation_metadata (t : CorrelationTracker) (event_id : EventId) :
    Option Metadata :=
  if ¬ t._started then none
  else
    match t.redis with
    | none => none
    | some store =>
        match lookupAssoc store.forward event_id with
        | none => none
        | some correlation => some correlation.metadata

/-- The two mutable locals of the inner coroutine of get_correlation_chain. -/
structure TraverseState where
  visited : List EventId
  chain : List EventId
deriving DecidableEq

mutual
/-- The inner `traverse(eid, current_depth)` coroutine of
CorrelationTracker.get_correlation_chain (src/correlation_tracker.py:297-322):
stop on a visited id or at max_depth, mark visited, recurse into parents
(ancestors) or children (descendants), and afterwards append `eid` to the chain
unless it is the starting event with no edge in the requested direction. -/
def CorrelationTracker.traverse (t : CorrelationTracker) (event_id : EventId)
    (direction : String) (max_depth : Nat) (eid : EventId) (current_depth : Nat)
    (st : TraverseState) : TraverseState :=
  if h : eid ∈ st.visited ∨ max_depth ≤ current_depth then st
  else
    let st1 : TraverseState := { visited := eid :: st.visited, chain := st.chain }
    let st2 : TraverseState :=
      if direction = "ancestors" then
        CorrelationTracker.traverseAll t event_id direction max_depth
          (t.get_parents eid) (current_depth + 1) st1
      else if direction = "descendants" then
        CorrelationTracker.traverseAll t event_id direction max_depth
          (t.get_children eid) (current_depth + 1) st1
      else st1
    if eid ≠ event_id then { st2 with chain := st2.chain ++ [eid] }
    else if direction = "ancestors" ∧ t.get_parents eid ≠ [] then
      { st2 with chain := st2.chain ++ [eid] }
    else if direction = "descendants" ∧ t.get_children eid ≠ [] then
      { st2 with chain := st2.chain ++ [eid] }
    else st2
termination_by (max_depth - current_depth, 0)

/-- The `for parent in parents: await traverse(parent, current_depth + 1)` loop
(and its descendants twin), iterating `traverse` over a list of ids. -/
def CorrelationTracker.traverseAll (t : CorrelationTracker) (event_id : EventId)
    (direction : String) (max_depth : Nat) (ids : List EventId) (current_depth : Nat)
    (st : TraverseState) : TraverseState :=
  match ids with
  | [] => st
  | x :: xs =>
      CorrelationTracker.traverseAll t event_id direction max_depth xs current_depth
        (CorrelationTracker.traverse t event_id direction max_depth x current_depth st)
termination_by (max_depth - current_depth, ids.length + 1)
end

/-- CorrelationTracker.get_correlation_chain (src/correlation_tracker.py:267-329).
The Python default arguments are direction="ancestors", max_depth=100; the
surrounding try/except never fires since the modelled traversal is total. -/
def CorrelationTracker.get_correlation_chain (t : CorrelationTracker) (event_id : EventId)
    (direction : String) (max_depth : Nat) : List EventId :=
  if ¬ t._started then []
  else
    match t.redis with
    | none => []
    | some _ =>
        (CorrelationTracker.traverse t event_id direction max_depth event_id 0
          { visited := [], chain := [] }).chain

/-! ### event_producers/events/base.py: envelopes (fields used by the core) -/

/-- Source (who produced the event); only the fields the embedded code reads. -/
structure Source where
  host : String
  trigger : String
  app : Option String
deriving DecidableEq

/-- EventEnvelope; `payload` is the raw dict (as after deserialization),
`agent_context` is kept opaque. -/
structure EventEnvelope where
  event_id : EventId
  event_type : String
  timestamp : Nat
  source : Source
  agent_context : Option String
  correlation_parents : List EventId
  payload : List (String × String)
deriving DecidableEq

/-! ### event_producers/rabbit.py: Publisher -/

/-- A message as delivered to the topic exchange. -/
structure BrokerMessage where
  routing_key : String
  body : EventEnvelope
  message_id : Option String
  correlation_id : Option String
deriving DecidableEq

/-- Publisher state: the correlation flag and tracker, plus the list of
messages delivered to the exchange. The model assumes the lazy `start` has
already connected the exchange; broker internals are out of scope. -/
structure Publisher where
  enable_correlation_tracking : Bool
  tracker : Option CorrelationTracker
  broker : List BrokerMessage
deriving DecidableEq

/-- Publisher.publish (src/event_producers/rabbit.py:149-232). Extracts the
event id from the body when absent, records the correlation edge when tracking
is enabled and both an event id and a non-empty parent list are present (a
degraded tracker makes that a no-op), then delivers the persistent message with
message_id = str(event_id). The ~1s wait_for around add_correlation is modelled
on its non-timeout path. -/
def Publisher.publish (p : Publisher) (routing_key : String) (body : EventEnvelope)
    (message_id : Option String) (correlation_id : Option String)
    (event_id : Option EventId) (parent_event_ids : List EventId)
    (correlation_metadata : Option Metadata) (now : Nat) : Publisher :=
  let event_id : Option EventId :=
    match event_id with
    | some e => some e
    | none => some body.event_id
  let p1 : Publisher :=
    if p.enable_correlation_tracking ∧ p.tracker.isSome ∧ event_id.isSome
        ∧ parent_event_ids ≠ [] then
      match p.tracker, event_id with
      | some tr, some e =>
          { p with
            tracker := some (tr.add_correlation e parent_event_ids correlation_metadata now) }
      | _, _ => p
    else p
  let msg : BrokerMessage :=
    { routing_key := routing_key
      body := body
      message_id :=
        match event_id with
        | some e => some (toString e)
        | none => message_id
      correlation_id := correlation_id }
  { p1 with broker := p1.broker ++ [msg] }

/-! ### event_producers/events/registry.py -/

/-- The identity of a Python payload class object (compared with `!=` in
add_event_type). -/
abbrev PayloadClass := Nat

/-- EventDomain (src/event_producers/events/registry.py:26-100). -/
structure EventDomain where
  name : String
  module_name : String
  payload_types : List (String × PayloadClass)
deriving DecidableEq

/-- EventDomain.add_event_type (src/event_producers/events/registry.py:58-76).
Raises ValueError when the event type is already registered with a different
payload class; otherwise assigns (a no-op re-assignment when the class is
identical). -/
def EventDomain.add_event_type (d : EventDomain) (event_type : String)
    (payload_class : PayloadClass) : Except String EventDomain :=
  match lookupAssoc d.payload_types event_type with
  | some existing =>
      if existing ≠ payload_class then
        Except.error ("Event type already registered in domain with a different payload class")
      else
        Except.ok { d with payload_types := setAssoc d.payload_types event_type payload_class }
  | none =>
      Except.ok { d with payload_types := setAssoc d.payload_types event_type payload_class }

/-- EventDomain.get_payload_type. -/
def EventDomain.get_payload_type (d : EventDomain) (event_type : String) :
    Option PayloadClass :=
  lookupAssoc d.payload_types event_type

/-- The `for domain in self.domains.values()` search of
EventRegistry.get_payload_type. -/
def firstPayloadType (domains : List (String × EventDomain)) (event_type : String) :
    Option PayloadClass :=
  match domains with
  | [] => none
  | (_, d) :: rest =>
      match d.get_payload_type event_type with
      | some payload_type => some payload_type
      | none => firstPayloadType rest event_type

/-- EventRegistry (src/event_producers/events/registry.py:103-436). -/
structure EventRegistry where
  domains : List (String × EventDomain)
deriving DecidableEq

/-- EventRegistry.get_payload_type: first match across all domains. -/
def EventRegistry.get_payload_type (r : EventRegistry) (event_type : String) :
    Option PayloadClass :=
  firstPayloadType r.domains event_type

/-- EventRegistry.register (src/event_producers/events/registry.py:146-186):
infer the domain from the event type when absent, create the domain on demand,
then delegate to EventDomain.add_event_type (whose ValueError propagates). -/
def EventRegistry.register (r : EventRegistry) (event_type : String)
    (payload_class : PayloadClass) (domain_name : Option String) :
    Except String EventRegistry :=
  let inferred : Except String String :=
    match domain_name with
    | some dn => Except.ok dn
    | none =>
        let parts := event_type.splitOn "."
        if parts.length < 2 then
          Except.error ("Cannot infer domain from event_type")
        else Except.ok (parts.headD "")
  match inferred with
  | Except.error e => Except.error e
  | Except.ok dn =>
      let domains1 : List (String × EventDomain) :=
        match lookupAssoc r.domains dn with
        | some _ => r.domains
        | none =>
            setAssoc r.domains dn
              { name := dn
                module_name := "event_producers.events.domains." ++ (dn.replace "/" ".")
                payload_types := [] }
      match lookupAssoc domains1 dn with
      | none => Except.error ("Domain lookup failed")
      | some d =>
          match d.add_event_type event_type payload_class with
          | Except.error e => Except.error e
          | Except.ok d' => Except.ok { domains := setAssoc domains1 dn d' }

/-! ### event_producers/events/core/abstraction.py -/

/-- CommandContext: contextual information for one command execution. -/
structure CommandContext where
  correlation_id : EventId
  source_app : String
  agent_context : Option String
  timestamp : Nat
deriving DecidableEq

/-- EventCollector: FIFO buffer of side-effect envelopes. -/
structure EventCollector where
  _events : List EventEnvelope
deriving DecidableEq

/-- EventCollector.add: append to the queue. -/
def EventCollector.add (c : EventCollector) (event : EventEnvelope) : EventCollector :=
  { _events := c._events ++ [event] }

/-- EventCollector.collect: retrieve and clear the collected events (returns
the events together with the cleared collector). -/
def EventCollector.collect (c : EventCollector) : List EventEnvelope × EventCollector :=
  (c._events, { _events := [] })

/-- EventCollector.count property. -/
def EventCollector.count (c : EventCollector) : Nat :=
  c._events.length

/-- Command execution failures (the exception raised by execute). -/
abbrev ExecErr := String

/-- The Invokable interface: `execute(context, collector)` returning the
collector after any `collector.add` calls, or raising (`Except.error`).
The return value R of execute is discarded by the manager and omitted here.
`rollback(context)` defaults to a no-op; its invocation is made observable in
the error value of `CommandManager._execute_command`. -/
structure Invokable where
  execute : CommandContext → EventCollector → Except ExecErr EventCollector

/-- The rehydrated payload object: `invokable = some cmd` models
`isinstance(payload_obj, Invokable)` being true. -/
structure PayloadObject where
  invokable : Option Invokable

/-! ### event_producers/events/core/manager.py -/

/-- The CommandContext constructed by CommandManager._execute_command
(src/event_producers/events/core/manager.py:58-63); `source.app or "unknown"`
is Python truthiness, so an empty or missing app becomes "unknown". -/
def CommandManager.mkContext (envelope : EventEnvelope) : CommandContext :=
  { correlation_id := envelope.event_id
    source_app :=
      match envelope.source.app with
      | some s => if s = "" then "unknown" else s
      | none => "unknown"
    agent_context := envelope.agent_context
    timestamp := envelope.timestamp }

/-- CommandManager._execute_command (src/event_producers/events/core/manager.py:53-91).
Creates the context and a fresh collector, executes the command, collects the
side effects and publishes each with parent_event_ids = [context.correlation_id].
On an execution exception, `command.rollback(context)` is invoked (default
no-op) and the exception is re-raised: the error value records the context the
rollback hook received. -/
def CommandManager._execute_command (p : Publisher) (command : Invokable)
    (envelope : EventEnvelope) (now : Nat) :
    Except (CommandContext × ExecErr) Publisher :=
  let context := CommandManager.mkContext envelope
  let collector : EventCollector := { _events := [] }
  match command.execute context collector with
  | Except.error e => Except.error (context, e)
  | Except.ok collector' =>
      let side_effects := (EventCollector.collect collector').1
      if side_effects ≠ [] then
        Except.ok
          (side_effects.foldl
            (fun pacc event =>
              pacc.publish event.event_type event none none (some event.event_id)
                [context.correlation_id] none now)
            p)
      else Except.ok p

/-- Result of CommandManager.handle_envelope (which itself returns None; the
outcome makes the logged terminal states observable). -/
inductive HandleOutcome where
  | no_payload_class
  | not_invokable
  | executed
  | execution_error_logged (rollback_context : CommandContext) (err : ExecErr)
deriving DecidableEq

/-- CommandManager.handle_envelope (src/event_producers/events/core/manager.py:22-51).
Resolves the payload class via the registry (unknown types are ignored),
rehydrates the payload (`instantiate` models `payload_class(**envelope.payload)`),
and executes invokable payloads. The surrounding `except Exception` catches the
exception re-raised by _execute_command and only logs it, so the caller always
gets a normal return. -/
def CommandManager.handle_envelope (registry : EventRegistry)
    (instantiate : PayloadClass → List (String × String) → PayloadObject)
    (p : Publisher) (envelope : EventEnvelope) (now : Nat) :
    Publisher × HandleOutcome :=
  match registry.get_payload_type envelope.event_type with
  | none => (p, HandleOutcome.no_payload_class)
  | some payload_class =>
      let payload_obj := instantiate payload_class envelope.payload
      match payload_obj.invokable with
      | some command =>
          match CommandManager._execute_command p command envelope now with
          | Except.ok p' => (p', HandleOutcome.executed)
          | Except.error (ctx, e) => (p, HandleOutcome.execution_error_logged ctx e)
      | none => (p, HandleOutcome.not_invokable)

/-! ### Auxiliary notions for the verification -/

/-- One traversal step of get_correlation_chain in the requested direction. -/
def stepFn (t : CorrelationTracker) (direction : String) (eid : EventId) : List EventId :=
  if direction = "ancestors" then t.get_parents eid
  else if direction = "descendants" then t.get_children eid
  else []

/-- `ReachLe step src n x`: `x` is reachable from `src` in at most `n` steps of
the edge function `step`. -/
inductive ReachLe (step : EventId → List EventId) : EventId → Nat → EventId → Prop where
  | refl (x : EventId) (n : Nat) : ReachLe step x n x
  | tail (x y z : EventId) (n : Nat) (hy : y ∈ step x) (h : ReachLe step y n z) :
      ReachLe step x (n + 1) z

/-- Postcondition relating a traversal input state to its output state:
the visited set grows, every newly visited id satisfies `R`, the chain grows by
a suffix of fresh (previously unvisited) ids that end up visited, and duplicate
freedom of the chain is preserved. -/
abbrev TravPost (st st' : TraverseState) (R : EventId → Prop) : Prop :=
  (∀ x ∈ st.visited, x ∈ st'.visited)
  ∧ (∀ x ∈ st'.visited, x ∈ st.visited ∨ R x)
  ∧ (∃ new, st'.chain = st.chain ++ new ∧ ∀ x ∈ new, x ∈ st'.visited ∧ x ∉ st.visited)
  ∧ ((st.chain.Nodup ∧ ∀ x ∈ st.chain, x ∈ st.visited) →
      (st'.chain.Nodup ∧ ∀ x ∈ st'.chain, x ∈ st'.visited))

/-! ### Concrete fixtures used by witnesses and counterexamples -/

/-- A started tracker holding exactly the linear edges A→B→C→D with
A = 1, B = 2, C = 3, D = 4 (forward records for B, C, D; reverse sets for
A, B, C). -/
def trackerABCD : CorrelationTracker :=
  { _started := true
    redis := some
      { forward :=
          [(2, { parent_event_ids := [1], created_at := 0, metadata := [] }),
           (3, { parent_event_ids := [2], created_at := 0, metadata := [] }),
           (4, { parent_event_ids := [3], created_at := 0, metadata := [] })]
        reverse := [(1, [2]), (2, [3]), (3, [4])] } }

/-- A started tracker holding the back-edge pair A→B, B→A (a cycle). -/
def trackerCycle : CorrelationTracker :=
  { _started := true
    redis := some
      { forward :=
          [(1, { parent_event_ids := [2], created_at := 0, metadata := [] }),
           (2, { parent_event_ids := [1], created_at := 0, metadata := [] })]
        reverse := [(1, [2]), (2, [1])] } }

/-- A started tracker with an empty store. -/
def tC6 : CorrelationTracker :=
  { _started := true, redis := some { forward := [], reverse := [] } }

/-- Side-effect envelope used in the command-flow witness. -/
def yC2 : EventEnvelope :=
  { event_id := 99, event_type := "agent.thread.response", timestamp := 0
    source := { host := "host", trigger := "manual", app := none }
    agent_context := none, correlation_parents := [], payload := [] }

/-- Inbound envelope used in the command-flow witness. -/
def envC2 : EventEnvelope :=
  { event_id := 10, event_type := "agent.thread.prompt", timestamp := 5
    source := { host := "host", trigger := "manual", app := some "app" }
    agent_context := none, correlation_parents := [], payload := [] }

/-- A command that appends exactly the envelope yC2 and returns normally. -/
def cmdC2 : Invokable :=
  { execute := fun _ _ => Except.ok { _events := [yC2] } }

/-- A registry resolving the inbound event type of envC2. -/
def regC2 : EventRegistry :=
  { domains :=
      [("agent",
        { name := "agent", module_name := "event_producers.events.domains.agent"
          payload_types := [("agent.thread.prompt", 7)] })] }

/-- Rehydration for the command-flow witness: the payload class is invokable. -/
def instC2 : PayloadClass → List (String × String) → PayloadObject :=
  fun _ _ => { invokable := some cmdC2 }

/-- Publisher with correlation tracking enabled and a reachable, empty store. -/
def pubC2 : Publisher :=
  { enable_correlation_tracking := true
    tracker := some { _started := true, redis := some { forward := [], reverse := [] } }
    broker := [] }

/-- Inbound envelope used in the failing-command counterexample. -/
def envC7 : EventEnvelope :=
  { event_id := 11, event_type := "agent.thread.prompt", timestamp := 7
    source := { host := "host", trigger := "manual", app := some "cli" }
    agent_context := none, correlation_parents := [], payload := [] }

/-- A command whose execute always raises. -/
def cmdC7 : Invokable :=
  { execute := fun _ _ => Except.error "boom" }

/-- A registry resolving the inbound event type of envC7. -/
def regC7 : EventRegistry :=
  { domains :=
      [("agent",
        { name := "agent", module_name := "event_producers.events.domains.agent"
          payload_types := [("agent.thread.prompt", 3)] })] }

/-- Rehydration for the failing-command counterexample. -/
def instC7 : PayloadClass → List (String × String) → PayloadObject :=
  fun _ _ => { invokable := some cmdC7 }

/-- Publisher used in the failing-command counterexample. -/
def pubC7 : Publisher :=
  { enable_correlation_tracking := false, tracker := none, broker := [] }

/-- Domain fixture for the duplicate-registration witness. -/
def dC8 : EventDomain :=
  { name := "fireflies", module_name := "event_producers.events.domains.fireflies"
    payload_types := [("fireflies.transcript.ready", 1)] }

/-! ## Helper lemmas -/

theorem lookupAssoc_setAssoc_self {κ β : Type} [DecidableEq κ] (l : List (κ × β)) (k : κ)
    (v : β) : lookupAssoc (setAssoc l k v) k = some v := by
  induction l with
  | nil => simp [setAssoc, lookupAssoc]
  | cons hd tl ih =>
      obtain ⟨k', v'⟩ := hd
      by_cases hk : k' = k
      · simp [setAssoc, lookupAssoc, hk]
      · simp [setAssoc, lookupAssoc, hk, ih]

theorem setAssoc_of_lookup_eq {κ β : Type} [DecidableEq κ] (l : List (κ × β)) (k : κ) (v : β)
    (h : lookupAssoc l k = some v) : setAssoc l k v = l := by
  induction l with
  | nil => simp [lookupAssoc] at h
  | cons hd tl ih =>
      obtain ⟨k', v'⟩ := hd
      by_cases hk : k' = k
      · simp only [lookupAssoc, if_pos hk, Option.some.injEq] at h
        simp [setAssoc, hk, h]
      · simp only [lookupAssoc, if_neg hk] at h
        simp [setAssoc, hk, ih h]

theorem get_parents_add_correlation (t : CorrelationTracker) (store : RedisStore)
    (hs : t._started = true) (hr : t.redis = some store) (child : EventId)
    (ps : List EventId) (m : Option Metadata) (now : Nat) :
    (t.add_correlation child ps m now).get_parents child = ps := by
  simp [CorrelationTracker.add_correlation, hs, hr, CorrelationTracker.get_parents,
    lookupAssoc_setAssoc_self]

theorem collector_foldl_events (es : List EventEnvelope) (l : List EventEnvelope) :
    (es.foldl EventCollector.add { _events := l })._events = l ++ es := by
  induction es generalizing l with
  | nil => simp
  | cons e es ih => simp [EventCollector.add, ih]

theorem publish_broker_append (p : Publisher) (rk : String) (body : EventEnvelope)
    (mi ci : Option String) (ei : Option EventId) (ps : List EventId)
    (cm : Option Metadata) (now : Nat) :
    (p.publish rk body mi ci ei ps cm now).broker
      = p.broker ++
        [{ routing_key := rk, body := body
           message_id := some (toString (ei.getD body.event_id)), correlation_id := ci }] := by
  cases ei <;> cases htr : p.tracker <;>
    simp [Publisher.publish, htr] <;>
    (try (split <;> simp))

theorem publish_tracker_add (p : Publisher) (tr : CorrelationTracker)
    (henable : p.enable_correlation_tracking = true) (htr : p.tracker = some tr)
    (rk : String) (body : EventEnvelope) (mi ci : Option String) (e : EventId)
    (ps : List EventId) (hps : ps ≠ []) (cm : Option Metadata) (now : Nat) :
    (p.publish rk body mi ci (some e) ps cm now).tracker
      = some (tr.add_correlation e ps cm now) := by
  simp [Publisher.publish, henable, htr, hps]

theorem fieldLe_trans : ∀ (a b c : String × String), fieldLe a b → fieldLe b c → fieldLe a c := by
  intro a b c hab hbc
  simp only [fieldLe, decide_eq_true_eq] at hab hbc ⊢
  rcases hab with h | ⟨he, hv⟩ <;> rcases hbc with h' | ⟨he', hv'⟩
  · exact Or.inl (lt_trans h h')
  · exact Or.inl (lt_of_lt_of_eq h he')
  · exact Or.inl (lt_of_eq_of_lt he h')
  · exact Or.inr ⟨he.trans he', le_trans hv hv'⟩

theorem fieldLe_total : ∀ (a b : String × String), fieldLe a b || fieldLe b a := by
  intro a b
  simp only [fieldLe, Bool.or_eq_true, decide_eq_true_eq]
  rcases lt_trichotomy a.1 b.1 with h | h | h
  · exact Or.inl (Or.inl h)
  · rcases le_total a.2 b.2 with hv | hv
    · exact Or.inl (Or.inr ⟨h, hv⟩)
    · exact Or.inr (Or.inr ⟨h.symm, hv⟩)
  · exact Or.inr (Or.inl h)

theorem fieldLe_antisymm : ∀ (a b : String × String),
    fieldLe a b = true → fieldLe b a = true → a = b := by
  intro a b hab hba
  simp only [fieldLe, decide_eq_true_eq] at hab hba
  rcases hab with h | ⟨he, hv⟩ <;> rcases hba with h' | ⟨he', hv'⟩
  · exact absurd h' (lt_asymm h)
  · rw [he'] at h
    exact absurd h (lt_irrefl _)
  · rw [he] at h'
    exact absurd h' (lt_irrefl _)
  · exact Prod.ext he (le_antisymm hv hv')

theorem mergeSort_fieldLe_congr {l1 l2 : List (String × String)} (h : l1.Perm l2) :
    l1.mergeSort fieldLe = l2.mergeSort fieldLe := by
  have hperm : (l1.mergeSort fieldLe).Perm (l2.mergeSort fieldLe) :=
    (List.mergeSort_perm l1 fieldLe).trans (h.trans (List.mergeSort_perm l2 fieldLe).symm)
  have hs1 := List.sorted_mergeSort fieldLe_trans fieldLe_total l1
  have hs2 := List.sorted_mergeSort fieldLe_trans fieldLe_total l2
  exact @List.eq_of_perm_of_sorted _ (fun a b => fieldLe a b = true) ⟨fieldLe_antisymm⟩
    _ _ hperm hs1 hs2

/-! ## Claim theorems -/

/-- C1: generate_event_id is deterministic and side-effect free (a pure
function of the string "namespace:event_type:unique_key" under the uuid5
derivation), and generate_idempotent_id is invariant under reordering of the
supplied fields because the field names are sorted before concatenation. -/
theorem generate_event_id_deterministic_and_order_free
    (uuid5 : String → Nat) (event_type unique_key ns : String)
    (fields1 fields2 : List (String × String)) (hperm : fields1.Perm fields2) :
    generate_event_id uuid5 event_type unique_key ns
        = generate_event_id uuid5 event_type unique_key ns
    ∧ generate_event_id uuid5 event_type unique_key ns
        = uuid5 (ns ++ ":" ++ event_type ++ ":" ++ unique_key)
    ∧ generate_idempotent_id uuid5 event_type fields1
        = generate_idempotent_id uuid5 event_type fields2 := by
  refine ⟨rfl, rfl, ?_⟩
  unfold generate_idempotent_id
  rw [mergeSort_fieldLe_congr hperm]

/-- Witness for C1 at a concrete hash function, event type and field lists. -/
theorem generate_event_id_deterministic_and_order_free_witness :
    ([("b", "1"), ("a", "2")] : List (String × String)).Perm [("a", "2"), ("b", "1")]
    ∧ (generate_event_id String.length "t" "k" "bloodbank"
          = generate_event_id String.length "t" "k" "bloodbank"
        ∧ generate_event_id String.length "t" "k" "bloodbank"
          = String.length ("bloodbank" ++ ":" ++ "t" ++ ":" ++ "k")
        ∧ generate_idempotent_id String.length "t" [("b", "1"), ("a", "2")]
          = generate_idempotent_id String.length "t" [("a", "2"), ("b", "1")]) :=
  ⟨List.Perm.swap ("a", "2") ("b", "1") [],
   generate_event_id_deterministic_and_order_free String.length "t" "k" "bloodbank"
     [("b", "1"), ("a", "2")] [("a", "2"), ("b", "1")]
     (List.Perm.swap ("a", "2") ("b", "1") [])⟩

/-- C5: when the connection attempt of start() fails or times out, start
returns normally and the tracker is disabled; thereafter add_correlation is a
no-op, get_parents / get_children / get_correlation_chain return the empty
list, get_correlation_metadata returns none, and publish on a bus holding this
degraded tracker still delivers the message to the broker. -/
theorem degraded_start_noop_and_publish_delivers :
    (CorrelationTracker.init.start none)._started = false
    ∧ (∀ (c : EventId) (ps : List EventId) (m : Option Metadata) (now : Nat),
        (CorrelationTracker.init.start none).add_correlation c ps m now
          = CorrelationTracker.init.start none)
    ∧ (∀ i : EventId, (CorrelationTracker.init.start none).get_parents i = [])
    ∧ (∀ i : EventId, (CorrelationTracker.init.start none).get_children i = [])
    ∧ (∀ (i : EventId) (dir : String) (md : Nat),
        (CorrelationTracker.init.start none).get_correlation_chain i dir md = [])
    ∧ (∀ i : EventId, (CorrelationTracker.init.start none).get_correlation_metadata i = none)
    ∧ (∀ (broker : List BrokerMessage) (rk : String) (body : EventEnvelope)
        (mi ci : Option String) (ei : Option EventId) (ps : List EventId)
        (cm : Option Metadata) (now : Nat),
        (Publisher.publish
            { enable_correlation_tracking := true
              tracker := some (CorrelationTracker.init.start none)
              broker := broker } rk body mi ci ei ps cm now).broker
          = broker ++
            [{ routing_key := rk, body := body
               message_id := some (toString (ei.getD body.event_id))
               correlation_id := ci }]) := by
  refine ⟨rfl, fun c ps m now => rfl, fun i => rfl, fun i => rfl,
    fun i dir md => rfl, fun i => rfl, fun broker rk body mi ci ei ps cm now => ?_⟩
  exact publish_broker_append _ rk body mi ci ei ps cm now

/-- C6 counterexample: on a started tracker with an empty reachable store,
add_correlation with an empty parent list does change the store (it writes a
forward record for the child), so it is not a complete no-op. -/
theorem add_correlation_empty_parents_not_noop :
    ¬ (tC6.add_correlation 1 [] none 0 = tC6) := by decide

/-- C6 (amended): add_correlation with an empty parent list writes only the
forward record for the child (with an empty parent list and the given
metadata), leaves the reverse index unchanged, and returns without error;
get_parents of the child still returns the empty list afterwards. -/
theorem add_correlation_empty_parents_writes_forward (t : CorrelationTracker)
    (store : RedisStore) (hs : t._started = true) (hr : t.redis = some store)
    (child : EventId) (m : Option Metadata) (now : Nat) :
    t.add_correlation child [] m now
      = { t with redis := some {
            forward := setAssoc store.forward child
              { parent_event_ids := [], created_at := now, metadata := m.getD [] }
            reverse := store.reverse } }
    ∧ (t.add_correlation child [] m now).get_parents child = []
    ∧ (t.add_correlation child [] m now).get_correlation_metadata child
        = some (m.getD []) := by
  refine ⟨?_, get_parents_add_correlation t store hs hr child [] m now, ?_⟩
  · simp [CorrelationTracker.add_correlation, hs, hr]
  · simp [CorrelationTracker.add_correlation, hs, hr,
      CorrelationTracker.get_correlation_metadata, lookupAssoc_setAssoc_self]

/-- Witness for the amended C6 at a concrete started tracker. -/
theorem add_correlation_empty_parents_writes_forward_witness :
    tC6._started = true
    ∧ tC6.redis = some { forward := [], reverse := [] }
    ∧ (tC6.add_correlation 5 [] none 0
        = { tC6 with redis := some {
              forward := setAssoc ([] : List (EventId × ForwardRecord)) 5
                { parent_event_ids := [], created_at := 0, metadata := [] }
              reverse := [] } }
      ∧ (tC6.add_correlation 5 [] none 0).get_parents 5 = []
      ∧ (tC6.add_correlation 5 [] none 0).get_correlation_metadata 5 = some []) :=
  ⟨rfl, rfl,
   add_correlation_empty_parents_writes_forward tC6 { forward := [], reverse := [] }
     rfl rfl 5 none 0⟩

/-- C7 counterexample: a command whose execute raises leads handle_envelope to
return normally with the error merely logged (publisher unchanged), while
_execute_command records the rollback invocation and re-raises; the exception
does not reach the caller of handle_envelope. -/
theorem handle_envelope_swallows_execution_error :
    CommandManager._execute_command pubC7 cmdC7 envC7 0
        = Except.error (CommandManager.mkContext envC7, "boom")
    ∧ CommandManager.handle_envelope regC7 instC7 pubC7 envC7 0
        = (pubC7, HandleOutcome.execution_error_logged (CommandManager.mkContext envC7)
            "boom") := by
  constructor <;> rfl

/-- C7 (amended): when execute raises, _execute_command invokes the rollback
hook with the same CommandContext and re-raises to its own caller; but
handle_envelope catches that exception and only logs it, returning normally
with the publisher unchanged. -/
theorem execute_command_rollback_and_handle_envelope_logs
    (p : Publisher) (command : Invokable) (envelope : EventEnvelope) (now : Nat)
    (e : ExecErr)
    (hexec : command.execute (CommandManager.mkContext envelope) { _events := [] }
        = Except.error e) :
    CommandManager._execute_command p command envelope now
        = Except.error (CommandManager.mkContext envelope, e)
    ∧ ∀ (registry : EventRegistry)
        (instantiate : PayloadClass → List (String × String) → PayloadObject)
        (payload_class : PayloadClass),
        registry.get_payload_type envelope.event_type = some payload_class →
        instantiate payload_class envelope.payload = { invokable := some command } →
        CommandManager.handle_envelope registry instantiate p envelope now
          = (p, HandleOutcome.execution_error_logged (CommandManager.mkContext envelope) e) := by
  have h1 : CommandManager._execute_command p command envelope now
      = Except.error (CommandManager.mkContext envelope, e) := by
    simp [CommandManager._execute_command, hexec]
  refine ⟨h1, ?_⟩
  intro registry instantiate payload_class hres hinst
  simp [CommandManager.handle_envelope, hres, hinst, h1]

/-- Witness for the amended C7 at the concrete failing command. -/
theorem execute_command_rollback_and_handle_envelope_logs_witness :
    cmdC7.execute (CommandManager.mkContext envC7) { _events := [] } = Except.error "boom"
    ∧ (CommandManager._execute_command pubC7 cmdC7 envC7 0
          = Except.error (CommandManager.mkContext envC7, "boom")
      ∧ ∀ (registry : EventRegistry)
          (instantiate : PayloadClass → List (String × String) → PayloadObject)
          (payload_class : PayloadClass),
          registry.get_payload_type envC7.event_type = some payload_class →
          instantiate payload_class envC7.payload = { invokable := some cmdC7 } →
          CommandManager.handle_envelope registry instantiate pubC7 envC7 0
            = (pubC7, HandleOutcome.execution_error_logged (CommandManager.mkContext envC7)
                "boom")) :=
  ⟨rfl, execute_command_rollback_and_handle_envelope_logs pubC7 cmdC7 envC7 0 "boom" rfl⟩

/-- C8: re-registering an event type in a domain raises exactly when the
already-registered payload class differs from the new one; re-registration
with the identical class succeeds and leaves the domain unchanged. -/
theorem add_event_type_conflict_iff (d : EventDomain) (event_type : String)
    (payload_class : PayloadClass) :
    ((∃ msg, d.add_event_type event_type payload_class = Except.error msg)
      ↔ (∃ existing, lookupAssoc d.payload_types event_type = some existing
          ∧ existing ≠ payload_class))
    ∧ (lookupAssoc d.payload_types event_type = some payload_class →
        d.add_event_type event_type payload_class = Except.ok d) := by
  constructor
  · cases hl : lookupAssoc d.payload_types event_type with
    | none => simp [EventDomain.add_event_type, hl]
    | some existing =>
        by_cases he : existing = payload_class
        · simp [EventDomain.add_event_type, hl, he]
        · simp [EventDomain.add_event_type, hl, he]
  · intro hl
    have hset := setAssoc_of_lookup_eq d.payload_types event_type payload_class hl
    simp [EventDomain.add_event_type, hl, hset]

/-- Witness for C8: registering the identical class again is accepted and is a
no-op on the concrete domain dC8. -/
theorem add_event_type_conflict_iff_witness :
    lookupAssoc dC8.payload_types "fireflies.transcript.ready" = some 1
    ∧ dC8.add_event_type "fireflies.transcript.ready" 1 = Except.ok dC8 :=
  ⟨rfl, (add_event_type_conflict_iff dC8 "fireflies.transcript.ready" 1).2 rfl⟩

/-- C9 counterexample: with live linear data in the store, the chain query
with the invalid direction "up" silently returns the empty list (no error is
raised), although the same query in a valid direction returns data. -/
theorem chain_invalid_direction_counterexample :
    trackerABCD.get_correlation_chain 4 "up" 100 = []
    ∧ trackerABCD.get_correlation_chain 4 "ancestors" 100 = [1, 2, 3, 4] := by
  constructor
  · simp [CorrelationTracker.get_correlation_chain, CorrelationTracker.traverse, trackerABCD]
  · simp [CorrelationTracker.get_correlation_chain, CorrelationTracker.traverse,
      CorrelationTracker.traverseAll, trackerABCD, CorrelationTracker.get_parents,
      CorrelationTracker.get_children, lookupAssoc]

/-- C9 (amended): a direction argument that is neither "ancestors" nor
"descendants" makes get_correlation_chain return the empty list; the invalid
input is not reported as an error. -/
theorem chain_invalid_direction_empty (t : CorrelationTracker) (event_id : EventId)
    (direction : String) (max_depth : Nat) (h1 : direction ≠ "ancestors")
    (h2 : direction ≠ "descendants") :
    t.get_correlation_chain event_id direction max_depth = [] := by
  by_cases hs : t._started
  · cases hr : t.redis with
    | none => simp [CorrelationTracker.get_correlation_chain, hs, hr]
    | some store =>
        by_cases hm : max_depth ≤ 0
        · simp [CorrelationTracker.get_correlation_chain, hs, hr,
            CorrelationTracker.traverse, hm]
        · simp [CorrelationTracker.get_correlation_chain, hs, hr,
            CorrelationTracker.traverse, hm, h1, h2]
  · simp [CorrelationTracker.get_correlation_chain, hs]

/-- Witness for the amended C9 on the concrete linear tracker. -/
theorem chain_invalid_direction_empty_witness :
    ("up" : String) ≠ "ancestors" ∧ ("up" : String) ≠ "descendants"
    ∧ trackerABCD.get_correlation_chain 7 "up" 100 = [] :=
  ⟨by decide, by decide, chain_invalid_direction_empty trackerABCD 7 "up" 100
    (by decide) (by decide)⟩

/-- C10: EventCollector.collect is a destructive FIFO drain: it returns the
added envelopes in insertion order, after which the buffer is empty (count 0)
and a second collect returns the empty list. -/
theorem collector_collect_fifo_drain (es : List EventEnvelope) :
    ((es.foldl EventCollector.add { _events := [] }).collect).1 = es
    ∧ (((es.foldl EventCollector.add { _events := [] }).collect).2).count = 0
    ∧ ((((es.foldl EventCollector.add { _events := [] }).collect).2).collect).1 = [] := by
  refine ⟨?_, rfl, rfl⟩
  simp [EventCollector.collect, collector_foldl_events]

/-- C2: for an inbound envelope X resolving to an invokable command whose
execution appends exactly one envelope Y and returns normally, handle_envelope
(with tracking enabled and a reachable store) publishes Y to the broker with
correlation parent [X.event_id], so a subsequent get_parents(Y.event_id) query
returns exactly [X.event_id]. -/
theorem handle_envelope_links_side_effect (registry : EventRegistry)
    (instantiate : PayloadClass → List (String × String) → PayloadObject)
    (p : Publisher) (envelope y : EventEnvelope) (now : Nat)
    (payload_class : PayloadClass) (command : Invokable)
    (tr : CorrelationTracker) (store : RedisStore)
    (hresolve : registry.get_payload_type envelope.event_type = some payload_class)
    (hinst : instantiate payload_class envelope.payload = { invokable := some command })
    (hexec : command.execute (CommandManager.mkContext envelope) { _events := [] }
        = Except.ok { _events := [y] })
    (henable : p.enable_correlation_tracking = true)
    (htr : p.tracker = some tr)
    (hstarted : tr._started = true)
    (hredis : tr.redis = some store) :
    (CommandManager.handle_envelope registry instantiate p envelope now).2
        = HandleOutcome.executed
    ∧ (CommandManager.handle_envelope registry instantiate p envelope now).1.broker
        = p.broker ++
          [{ routing_key := y.event_type, body := y
             message_id := some (toString y.event_id), correlation_id := none }]
    ∧ ∃ tr', (CommandManager.handle_envelope registry instantiate p envelope now).1.tracker
          = some tr'
        ∧ tr'.get_parents y.event_id = [envelope.event_id] := by
  have hcmd : CommandManager._execute_command p command envelope now
      = Except.ok (p.publish y.event_type y none none (some y.event_id)
          [envelope.event_id] none now) := by
    simp only [CommandManager._execute_command, hexec]
    simp [EventCollector.collect, CommandManager.mkContext]
  have hh : CommandManager.handle_envelope registry instantiate p envelope now
      = (p.publish y.event_type y none none (some y.event_id) [envelope.event_id] none now,
         HandleOutcome.executed) := by
    simp [CommandManager.handle_envelope, hresolve, hinst, hcmd]
  rw [hh]
  refine ⟨rfl, ?_, ?_⟩
  · have hb := publish_broker_append p y.event_type y none none (some y.event_id)
      [envelope.event_id] none now
    simpa using hb
  · refine ⟨tr.add_correlation y.event_id [envelope.event_id] none now, ?_, ?_⟩
    · exact publish_tracker_add p tr henable htr y.event_type y none none y.event_id
        [envelope.event_id] (by simp) none now
    · exact get_parents_add_correlation tr store hstarted hredis y.event_id
        [envelope.event_id] none now

/-- Witness for C2 on the concrete command-flow fixtures. -/
theorem handle_envelope_links_side_effect_witness :
    regC2.get_payload_type envC2.event_type = some 7
    ∧ instC2 7 envC2.payload = { invokable := some cmdC2 }
    ∧ cmdC2.execute (CommandManager.mkContext envC2) { _events := [] }
        = Except.ok { _events := [yC2] }
    ∧ pubC2.enable_correlation_tracking = true
    ∧ pubC2.tracker
        = some { _started := true, redis := some { forward := [], reverse := [] } }
    ∧ ((CommandManager.handle_envelope regC2 instC2 pubC2 envC2 0).2
          = HandleOutcome.executed
      ∧ (CommandManager.handle_envelope regC2 instC2 pubC2 envC2 0).1.broker
          = pubC2.broker ++
            [{ routing_key := yC2.event_type, body := yC2
               message_id := some (toString yC2.event_id), correlation_id := none }]
      ∧ ∃ tr', (CommandManager.handle_envelope regC2 instC2 pubC2 envC2 0).1.tracker
            = some tr'
          ∧ tr'.get_parents yC2.event_id = [envC2.event_id]) :=
  ⟨rfl, rfl, rfl, rfl, rfl,
   handle_envelope_links_side_effect regC2 instC2 pubC2 envC2 yC2 0 7 cmdC2
     { _started := true, redis := some { forward := [], reverse := [] } }
     { forward := [], reverse := [] } rfl rfl rfl rfl rfl rfl rfl⟩

/-- C3: for the linear store A→B→C→D (ids 1,2,3,4), with max_depth at least
the chain length 4, the ancestors chain from D and the descendants chain from
A each contain exactly the ids A, B, C, D (the starting id included since it
has at least one edge in the requested direction). -/
theorem chain_linear_exact (max_depth : Nat) (h : 4 ≤ max_depth) :
    (∀ x : EventId, x ∈ trackerABCD.get_correlation_chain 4 "ancestors" max_depth
        ↔ x ∈ ([1, 2, 3, 4] : List EventId))
    ∧ (∀ x : EventId, x ∈ trackerABCD.get_correlation_chain 1 "descendants" max_depth
        ↔ x ∈ ([1, 2, 3, 4] : List EventId)) := by
  have h0 : ¬ (max_depth ≤ 0) := by omega
  have h1 : ¬ (max_depth ≤ 1) := by omega
  have h2 : ¬ (max_depth ≤ 2) := by omega
  have h3 : ¬ (max_depth ≤ 3) := by omega
  have e1 : trackerABCD.get_correlation_chain 4 "ancestors" max_depth = [1, 2, 3, 4] := by
    simp [CorrelationTracker.get_correlation_chain, CorrelationTracker.traverse,
      CorrelationTracker.traverseAll, trackerABCD, CorrelationTracker.get_parents,
      CorrelationTracker.get_children, lookupAssoc, h0, h1, h2, h3]
  have e2 : trackerABCD.get_correlation_chain 1 "descendants" max_depth = [4, 3, 2, 1] := by
    simp [CorrelationTracker.get_correlation_chain, CorrelationTracker.traverse,
      CorrelationTracker.traverseAll, trackerABCD, CorrelationTracker.get_parents,
      CorrelationTracker.get_children, lookupAssoc, h0, h1, h2, h3]
  rw [e1, e2]
  constructor <;> intro x <;> constructor <;> intro hx <;> simp at hx ⊢ <;> tauto

/-- Witness for C3 at max_depth = 4. -/
theorem chain_linear_exact_witness :
    4 ≤ 4
    ∧ ((∀ x : EventId, x ∈ trackerABCD.get_correlation_chain 4 "ancestors" 4
          ↔ x ∈ ([1, 2, 3, 4] : List EventId))
      ∧ (∀ x : EventId, x ∈ trackerABCD.get_correlation_chain 1 "descendants" 4
          ↔ x ∈ ([1, 2, 3, 4] : List EventId))) :=
  ⟨le_refl 4, chain_linear_exact 4 (le_refl 4)⟩

theorem travPost_refl (st : TraverseState) (R : EventId → Prop) : TravPost st st R :=
  ⟨fun _ hx => hx, fun _ hx => Or.inl hx, ⟨[], by simp, by simp⟩, fun h => h⟩

theorem travPost_mono {st st' : TraverseState} {R R' : EventId → Prop}
    (h : TravPost st st' R) (hR : ∀ x, R x → R' x) : TravPost st st' R' := by
  obtain ⟨h1, h2, h3, h4⟩ := h
  exact ⟨h1, fun x hx => (h2 x hx).imp id (hR x), h3, h4⟩

theorem travPost_comp {st1 st2 st3 : TraverseState} {R1 R2 : EventId → Prop}
    (ha : TravPost st1 st2 R1) (hb : TravPost st2 st3 R2) :
    TravPost st1 st3 (fun x => R1 x ∨ R2 x) := by
  obtain ⟨a1, a2, ⟨newa, hca, hna⟩, a4⟩ := ha
  obtain ⟨b1, b2, ⟨newb, hcb, hnb⟩, b4⟩ := hb
  refine ⟨fun x hx => b1 x (a1 x hx), ?_, ⟨newa ++ newb, ?_, ?_⟩, fun h => b4 (a4 h)⟩
  · intro x hx
    rcases b2 x hx with hx2 | hx2
    · rcases a2 x hx2 with hx1 | hx1
      · exact Or.inl hx1
      · exact Or.inr (Or.inl hx1)
    · exact Or.inr (Or.inr hx2)
  · rw [hcb, hca, List.append_assoc]
  · intro x hx
    rcases List.mem_append.mp hx with hx' | hx'
    · exact ⟨b1 x (hna x hx').1, (hna x hx').2⟩
    · exact ⟨(hnb x hx').1, fun hmem => (hnb x hx').2 (a1 x hmem)⟩

theorem travPost_step {st st2 : TraverseState} {eid : EventId} {R : EventId → Prop}
    (hv : eid ∉ st.visited)
    (hA : TravPost { visited := eid :: st.visited, chain := st.chain } st2 R)
    (hReid : R eid) :
    TravPost st st2 R
    ∧ TravPost st { visited := st2.visited, chain := st2.chain ++ [eid] } R := by
  obtain ⟨a1, a2, ⟨new, hc, hn⟩, a4⟩ := hA
  have heidst2 : eid ∈ st2.visited := a1 eid (List.mem_cons_self _ _)
  constructor
  · refine ⟨?_, ?_, ⟨new, hc, ?_⟩, ?_⟩
    · intro x hx
      exact a1 x (List.mem_cons_of_mem _ hx)
    · intro x hx
      rcases a2 x hx with hx1 | hx1
      · rcases List.mem_cons.mp hx1 with rfl | hx1'
        · exact Or.inr hReid
        · exact Or.inl hx1'
      · exact Or.inr hx1
    · intro x hx
      exact ⟨(hn x hx).1, fun hmem => (hn x hx).2 (List.mem_cons_of_mem _ hmem)⟩
    · rintro ⟨hnd, hsub⟩
      exact a4 ⟨hnd, fun x hx => List.mem_cons_of_mem _ (hsub x hx)⟩
  · refine ⟨?_, ?_, ⟨new ++ [eid], ?_, ?_⟩, ?_⟩
    · intro x hx
      exact a1 x (List.mem_cons_of_mem _ hx)
    · intro x hx
      rcases a2 x hx with hx1 | hx1
      · rcases List.mem_cons.mp hx1 with rfl | hx1'
        · exact Or.inr hReid
        · exact Or.inl hx1'
      · exact Or.inr hx1
    · show st2.chain ++ [eid] = st.chain ++ (new ++ [eid])
      rw [hc, List.append_assoc]
    · intro x hx
      rcases List.mem_append.mp hx with hx' | hx'
      · exact ⟨(hn x hx').1, fun hmem => (hn x hx').2 (List.mem_cons_of_mem _ hmem)⟩
      · rcases List.mem_singleton.mp hx' with rfl
        exact ⟨heidst2, hv⟩
    · rintro ⟨hnd, hsub⟩
      obtain ⟨hnd2, hsub2⟩ := a4 ⟨hnd, fun x hx => List.mem_cons_of_mem _ (hsub x hx)⟩
      have heidnotchain : eid ∉ st2.chain := by
        rw [hc]
        intro hmem
        rcases List.mem_append.mp hmem with hm | hm
        · exact hv (hsub eid hm)
        · exact (hn eid hm).2 (List.mem_cons_self _ _)
      refine ⟨List.Nodup.append hnd2 (List.nodup_singleton eid) ?_, ?_⟩
      · simpa using heidnotchain
      · intro x hx
        rcases List.mem_append.mp hx with hx' | hx'
        · exact hsub2 x hx'
        · rcases List.mem_singleton.mp hx' with rfl
          exact heidst2

theorem traverse_unfold_ancestors (t : CorrelationTracker) (root : EventId) (maxD : Nat)
    (eid : EventId) (d : Nat) (st : TraverseState) (hv : eid ∉ st.visited)
    (hd : d < maxD) :
    CorrelationTracker.traverse t root "ancestors" maxD eid d st =
      (if eid ≠ root ∨ t.get_parents eid ≠ [] then
        { visited := (CorrelationTracker.traverseAll t root "ancestors" maxD
            (t.get_parents eid) (d + 1)
            { visited := eid :: st.visited, chain := st.chain }).visited
          chain := (CorrelationTracker.traverseAll t root "ancestors" maxD
            (t.get_parents eid) (d + 1)
            { visited := eid :: st.visited, chain := st.chain }).chain ++ [eid] }
      else CorrelationTracker.traverseAll t root "ancestors" maxD
            (t.get_parents eid) (d + 1)
            { visited := eid :: st.visited, chain := st.chain }) := by
  have hguard : ¬ (eid ∈ st.visited ∨ maxD ≤ d) := by
    push_neg
    exact ⟨hv, by omega⟩
  simp only [CorrelationTracker.traverse]
  rw [dif_neg hguard]
  by_cases hroot : eid ≠ root
  · simp [hroot]
  · by_cases hpar : t.get_parents eid ≠ []
    · simp [hroot, hpar]
    · simp [hroot, hpar]

theorem traverse_unfold_descendants (t : CorrelationTracker) (root : EventId) (maxD : Nat)
    (eid : EventId) (d : Nat) (st : TraverseState) (hv : eid ∉ st.visited)
    (hd : d < maxD) :
    CorrelationTracker.traverse t root "descendants" maxD eid d st =
      (if eid ≠ root ∨ t.get_children eid ≠ [] then
        { visited := (CorrelationTracker.traverseAll t root "descendants" maxD
            (t.get_children eid) (d + 1)
            { visited := eid :: st.visited, chain := st.chain }).visited
          chain := (CorrelationTracker.traverseAll t root "descendants" maxD
            (t.get_children eid) (d + 1)
            { visited := eid :: st.visited, chain := st.chain }).chain ++ [eid] }
      else CorrelationTracker.traverseAll t root "descendants" maxD
            (t.get_children eid) (d + 1)
            { visited := eid :: st.visited, chain := st.chain }) := by
  have hguard : ¬ (eid ∈ st.visited ∨ maxD ≤ d) := by
    push_neg
    exact ⟨hv, by omega⟩
  simp only [CorrelationTracker.traverse]
  rw [dif_neg hguard]
  by_cases hroot : eid ≠ root
  · simp [hroot]
  · by_cases hch : t.get_children eid ≠ []
    · simp [hroot, hch]
    · simp [hroot, hch]

theorem traverse_unfold_other (t : CorrelationTracker) (root : EventId) (dir : String)
    (maxD : Nat) (eid : EventId) (d : Nat) (st : TraverseState) (hv : eid ∉ st.visited)
    (hd : d < maxD) (h1 : dir ≠ "ancestors") (h2 : dir ≠ "descendants") :
    CorrelationTracker.traverse t root dir maxD eid d st =
      (if eid ≠ root then { visited := eid :: st.visited, chain := st.chain ++ [eid] }
      else { visited := eid :: st.visited, chain := st.chain }) := by
  have hguard : ¬ (eid ∈ st.visited ∨ maxD ≤ d) := by
    push_neg
    exact ⟨hv, by omega⟩
  simp only [CorrelationTracker.traverse]
  rw [dif_neg hguard]
  by_cases hroot : eid ≠ root
  · simp [hroot, h1, h2]
  · simp [hroot, h1, h2]

theorem traverseAll_post_of (t : CorrelationTracker) (root : EventId) (dir : String)
    (maxD : Nat) (fuel : Nat)
    (hA : ∀ (eid : EventId) (d : Nat) (st : TraverseState), maxD - d ≤ fuel →
      TravPost st (CorrelationTracker.traverse t root dir maxD eid d st)
        (ReachLe (stepFn t dir) eid (maxD - d))) :
    ∀ (ids : List EventId) (d : Nat) (st : TraverseState), maxD - d ≤ fuel →
      TravPost st (CorrelationTracker.traverseAll t root dir maxD ids d st)
        (fun x => ∃ y ∈ ids, ReachLe (stepFn t dir) y (maxD - d) x) := by
  intro ids
  induction ids with
  | nil =>
      intro d st _
      simp only [CorrelationTracker.traverseAll]
      exact travPost_refl st _
  | cons x xs ih =>
      intro d st hle
      simp only [CorrelationTracker.traverseAll]
      have h1 := hA x d st hle
      have h2 := ih d (CorrelationTracker.traverse t root dir maxD x d st) hle
      refine travPost_mono (travPost_comp h1 h2) ?_
      intro z hz
      rcases hz with hz | ⟨y, hy, hz⟩
      · exact ⟨x, List.mem_cons_self _ _, hz⟩
      · exact ⟨y, List.mem_cons_of_mem _ hy, hz⟩

theorem traverse_post (t : CorrelationTracker) (root : EventId) (dir : String)
    (maxD : Nat) :
    ∀ (fuel : Nat) (eid : EventId) (d : Nat) (st : TraverseState), maxD - d ≤ fuel →
      TravPost st (CorrelationTracker.traverse t root dir maxD eid d st)
        (ReachLe (stepFn t dir) eid (maxD - d)) := by
  intro fuel
  induction fuel with
  | zero =>
      intro eid d st hle
      have hguard : eid ∈ st.visited ∨ maxD ≤ d := Or.inr (by omega)
      simp only [CorrelationTracker.traverse]
      rw [dif_pos hguard]
      exact travPost_refl st _
  | succ n ihn =>
      intro eid d st hle
      by_cases hguard : eid ∈ st.visited ∨ maxD ≤ d
      · simp only [CorrelationTracker.traverse]
        rw [dif_pos hguard]
        exact travPost_refl st _
      · have hv : eid ∉ st.visited := fun hmem => hguard (Or.inl hmem)
        have hdle : ¬ maxD ≤ d := fun hl => hguard (Or.inr hl)
        have hd : d < maxD := by omega
        have hfuel2 : maxD - (d + 1) ≤ n := by omega
        have hidx : maxD - (d + 1) + 1 = maxD - d := by omega
        have hB := traverseAll_post_of t root dir maxD n ihn
        by_cases hanc : dir = "ancestors"
        · subst hanc
          have hB1 := hB (t.get_parents eid) (d + 1)
            { visited := eid :: st.visited, chain := st.chain } hfuel2
          have hB2 : TravPost { visited := eid :: st.visited, chain := st.chain }
              (CorrelationTracker.traverseAll t root "ancestors" maxD (t.get_parents eid)
                (d + 1) { visited := eid :: st.visited, chain := st.chain })
              (ReachLe (stepFn t "ancestors") eid (maxD - d)) := by
            refine travPost_mono hB1 ?_
            rintro z ⟨y, hy, hz⟩
            have hy' : y ∈ stepFn t "ancestors" eid := by simpa [stepFn] using hy
            have ht := ReachLe.tail eid y z (maxD - (d + 1)) hy' hz
            rwa [hidx] at ht
          rcases travPost_step hv hB2 (ReachLe.refl eid (maxD - d)) with ⟨hno, hyes⟩
          rw [traverse_unfold_ancestors t root maxD eid d st hv hd]
          by_cases hcond : eid ≠ root ∨ t.get_parents eid ≠ []
          · rw [if_pos hcond]
            exact hyes
          · rw [if_neg hcond]
            exact hno
        · by_cases hdesc : dir = "descendants"
          · subst hdesc
            have hB1 := hB (t.get_children eid) (d + 1)
              { visited := eid :: st.visited, chain := st.chain } hfuel2
            have hB2 : TravPost { visited := eid :: st.visited, chain := st.chain }
                (CorrelationTracker.traverseAll t root "descendants" maxD (t.get_children eid)
                  (d + 1) { visited := eid :: st.visited, chain := st.chain })
                (ReachLe (stepFn t "descendants") eid (maxD - d)) := by
              refine travPost_mono hB1 ?_
              rintro z ⟨y, hy, hz⟩
              have hy' : y ∈ stepFn t "descendants" eid := by simpa [stepFn] using hy
              have ht := ReachLe.tail eid y z (maxD - (d + 1)) hy' hz
              rwa [hidx] at ht
            rcases travPost_step hv hB2 (ReachLe.refl eid (maxD - d)) with ⟨hno, hyes⟩
            rw [traverse_unfold_descendants t root maxD eid d st hv hd]
            by_cases hcond : eid ≠ root ∨ t.get_children eid ≠ []
            · rw [if_pos hcond]
              exact hyes
            · rw [if_neg hcond]
              exact hno
          · have hB2 : TravPost { visited := eid :: st.visited, chain := st.chain }
                { visited := eid :: st.visited, chain := st.chain }
                (ReachLe (stepFn t dir) eid (maxD - d)) := travPost_refl _ _
            rcases travPost_step hv hB2 (ReachLe.refl eid (maxD - d)) with ⟨hno, hyes⟩
            rw [traverse_unfold_other t root dir maxD eid d st hv hd hanc hdesc]
            by_cases hroot : eid ≠ root
            · rw [if_pos hroot]
              exact hyes
            · rw [if_neg hroot]
              exact hno

/-- C4: for every store state, starting id, direction and max_depth, the chain
traversal is a total function whose result is duplicate-free (each id is
visited at most once) and contains only ids reachable from the starting id
within max_depth hops in the requested direction; this holds in particular for
stores containing cycles such as the back-edge pair A→B, B→A. -/
theorem chain_traversal_terminates_bounded (t : CorrelationTracker) (event_id : EventId)
    (direction : String) (max_depth : Nat) :
    (t.get_correlation_chain event_id direction max_depth).Nodup
    ∧ ∀ x ∈ t.get_correlation_chain event_id direction max_depth,
        ReachLe (stepFn t direction) event_id max_depth x := by
  by_cases hs : t._started
  · cases hr : t.redis with
    | none => simp [CorrelationTracker.get_correlation_chain, hs, hr]
    | some store =>
        have h := traverse_post t event_id direction max_depth max_depth event_id 0
          { visited := [], chain := [] } (by omega)
        obtain ⟨h1, h2, ⟨new, hc, hn⟩, h4⟩ := h
        obtain ⟨hnd, hsub⟩ := h4 ⟨List.nodup_nil, by simp⟩
        have hchain : t.get_correlation_chain event_id direction max_depth
            = (CorrelationTracker.traverse t event_id direction max_depth event_id 0
                { visited := [], chain := [] }).chain := by
          simp [CorrelationTracker.get_correlation_chain, hs, hr]
        rw [hchain]
        refine ⟨hnd, ?_⟩
        intro x hx
        rcases h2 x (hsub x hx) with hmem | hre
        · simp at hmem
        · simpa using hre
  · simp [CorrelationTracker.get_correlation_chain, hs]

/-- Witness for C4 on the concrete cyclic store (back-edge pair 1→2, 2→1). -/
theorem chain_traversal_terminates_bounded_witness :
    (trackerCycle.get_correlation_chain 1 "ancestors" 100).Nodup
    ∧ ∀ x ∈ trackerCycle.get_correlation_chain 1 "ancestors" 100,
        ReachLe (stepFn trackerCycle "ancestors") 1 100 x :=
  chain_traversal_terminates_bounded trackerCycle 1 "ancestors" 100
